import Mathlib

/-!
Verification of the youtube-chat-downloader incremental channel sync engine.

This file gives a shallow embedding of the core of the repository
(`youtube_chat_downloader/core/downloader.py`,
`youtube_chat_downloader/utils/emoji_handler.py`,
`youtube_chat_downloader/database/models.py` together with the SQLAlchemy
session semantics used by the persistence layer), and proves or refutes the
frozen specification claims about it.

External collaborators (yt-dlp extraction, chat-downloader streaming, the
wall clock) are modelled as oracle functions passed in as parameters; Python
exceptions raised by a collaborator are modelled by the oracle returning
`none`.  Python string truthiness (`if not s`) is modelled explicitly: both
the absent value and the empty string count as falsy.
-/

/-! ### Generic string helpers (Python `in`, `.strip`, `.lower`) -/

/-- Does `needle` occur as the initial segment of `hay`?  Used to build the
Python substring test `needle in hay`. -/
def startsWithSeq : List Char → List Char → Bool
  | _, [] => true
  | [], _ :: _ => false
  | h :: t, n :: ns => h == n && startsWithSeq t ns

/-- Python substring containment `needle in hay`, on character lists. -/
def containsSeq (hay needle : List Char) : Bool :=
  match hay with
  | [] => startsWithSeq [] needle
  | _ :: t => startsWithSeq hay needle || containsSeq t needle

/-- Python `needle in hay` on strings. -/
def strContainsStr (hay needle : String) : Bool :=
  containsSeq hay.toList needle.toList

/-- Python `str.lower` (ASCII letters; the live keywords checked by the code
are either ASCII or unaffected by lowercasing). -/
def lowerStr (s : String) : String :=
  String.mk (s.toList.map Char.toLower)

/-- Python `channel_id.strip('@')`: remove leading and trailing `@`. -/
def stripAt (s : String) : String :=
  String.mk (((s.toList.dropWhile (fun c => c == '@')).reverse.dropWhile
    (fun c => c == '@')).reverse)

/-- Python truthiness of an optional string: `None` and `""` are falsy.
Returns the string when truthy, `none` otherwise. -/
def truthyStr : Option String → Option String
  | none => none
  | some s => if s = "" then none else some s

/-! ### JSON values (for the serialized `emotes` payload)

`Jn` models the values `json.loads` can produce; numbers are collapsed to
`Int` since none of the verified code inspects numeric content. -/

inductive Jn where
  | null
  | bool (b : Bool)
  | num (n : Int)
  | str (s : String)
  | arr (elems : List Jn)
  | obj (fields : List (String × Jn))

/-- `dict.get key` on a decoded JSON object: first binding wins (Python dict
keys are unique, so an association-list lookup is faithful). -/
def jfind : List (String × Jn) → String → Option Jn
  | [], _ => none
  | (k, v) :: rest, key => if k = key then some v else jfind rest key

/-- Python truthiness of a JSON value (`if emote.get('name')`). -/
def jnTruthy : Jn → Bool
  | Jn.null => false
  | Jn.bool b => b
  | Jn.num n => n != 0
  | Jn.str s => s != ""
  | Jn.arr [] => false
  | Jn.arr (_ :: _) => true
  | Jn.obj [] => false
  | Jn.obj (_ :: _) => true

/-! ### emoji_handler.extract_emote_info and friends -/

/-- One element of the list `extract_emote_info` returns: the dict
`{'name': ..., 'id': ..., 'url': ..., 'is_custom_emoji': ...}`. -/
structure EmoteInfo where
  name : Jn
  id : Jn
  url : Jn
  is_custom_emoji : Jn

/-- One iteration of the loop in `extract_emote_info`.  A non-dict entry is
skipped (`isinstance` guard → `ok none`).  For a dict entry, Python
evaluates the default argument `emote.get('image', {}).get('url', '')`
eagerly, so an `image` field that is present but not a dict raises
`AttributeError` (→ `error`), which the enclosing `except` turns into an
overall empty result. -/
def processEmote (e : Jn) : Except Unit (Option EmoteInfo) :=
  match e with
  | Jn.obj fields =>
      match (jfind fields "image").getD (Jn.obj []) with
      | Jn.obj ifields =>
          Except.ok (some
            { name := (jfind fields "name").getD (Jn.str ""),
              id := (jfind fields "id").getD ((jfind fields "emoji_id").getD (Jn.str "")),
              url := (jfind fields "url").getD ((jfind ifields "url").getD (Jn.str "")),
              is_custom_emoji := (jfind fields "is_custom_emoji").getD (Jn.bool true) })
      | _ => Except.error ()
  | _ => Except.ok none

/-- The `for emote in emotes` loop of `extract_emote_info`: entries are
processed in order and an exception anywhere discards the partial result. -/
def processEmoteList : List Jn → Except Unit (List EmoteInfo)
  | [] => Except.ok []
  | e :: rest =>
      match processEmote e with
      | Except.error u => Except.error u
      | Except.ok headOpt =>
          match processEmoteList rest with
          | Except.error u => Except.error u
          | Except.ok tail =>
              match headOpt with
              | some info => Except.ok (info :: tail)
              | none => Except.ok tail

/-- `extract_emote_info(emotes_data)`.  `decode` models `json.loads`, with
`none` standing for `JSONDecodeError`.  A falsy input, an undecodable
payload, a non-list payload, or an exception while processing entries all
yield the empty list. -/
def extract_emote_info (decode : String → Option Jn) (emotes_data : Option String) :
    List EmoteInfo :=
  match emotes_data with
  | none => []
  | some s =>
      if s = "" then []
      else
        match decode s with
        | none => []
        | some (Jn.arr emotes) =>
            match processEmoteList emotes with
            | Except.ok result => result
            | Except.error _ => []
        | some _ => []

/-- `count_emotes(emotes_data)`. -/
def count_emotes (decode : String → Option Jn) (emotes_data : Option String) : Nat :=
  (extract_emote_info decode emotes_data).length

/-- `get_emote_names(emotes_data)`: names of the extracted emotes whose
`name` value is truthy. -/
def get_emote_names (decode : String → Option Jn) (emotes_data : Option String) : List Jn :=
  ((extract_emote_info decode emotes_data).filter (fun e => jnTruthy e.name)).map
    (fun e => e.name)

/-! ### emoji_handler.has_custom_emojis

The Python code searches the message for the regular expression
`:[a-zA-Z][a-zA-Z0-9_-]*:`.  Because `:` is not in the identifier character
class, backtracking never helps: a match starting at a given position exists
iff after `:` and a leading letter, the maximal run of identifier characters
is immediately followed by `:`.  The scanner below implements exactly that.
-/

/-- The regex class `[a-zA-Z]`. -/
def isAsciiLetterCh (c : Char) : Bool :=
  ('a' ≤ c && c ≤ 'z') || ('A' ≤ c && c ≤ 'Z')

/-- The regex class `[a-zA-Z0-9_-]`. -/
def isIdentCh (c : Char) : Bool :=
  isAsciiLetterCh c || ('0' ≤ c && c ≤ '9') || c == '_' || c == '-'

/-- After `:` and a leading letter: consume identifier characters; succeed
on the closing `:`. -/
def afterIdent : List Char → Bool
  | [] => false
  | c :: rest => if c == ':' then true else if isIdentCh c then afterIdent rest else false

/-- Does `:[a-zA-Z][a-zA-Z0-9_-]*:` match at the head of the list? -/
def matchEmoteTok : List Char → Bool
  | x :: c :: rest => x == ':' && isAsciiLetterCh c && afterIdent rest
  | _ => false

/-- `re.search`: does the pattern match at any position? -/
def searchEmoteTok : List Char → Bool
  | [] => false
  | c :: rest => matchEmoteTok (c :: rest) || searchEmoteTok rest

/-- `has_custom_emojis(message)`: falsy message → `False`, otherwise search
for the `:identifier:` token pattern. -/
def has_custom_emojis (message : String) : Bool :=
  if message = "" then false else searchEmoteTok message.toList

/-- Declarative reading of the claim: the message splits as
`pre ++ ':' ++ (c :: cs) ++ ':' ++ post` with `c` a letter and `cs`
identifier characters. -/
def HasEmoteToken (l : List Char) : Prop :=
  ∃ pre c cs post, l = pre ++ ':' :: c :: (cs ++ ':' :: post) ∧
    isAsciiLetterCh c = true ∧ ∀ d ∈ cs, isIdentCh d = true

/-! ### Discovery (`get_channel_livestreams`, `_search_channel_livestreams`,
`_get_channel_info`)

The yt-dlp extraction client is modelled as three oracles, one per call
site: `infoO` for `_get_channel_info` channel-page probes (returning the
channel-info dict built there), `listO` for the channel-tab listing probes,
and `searchO` for the keyword searches.  An oracle answering `none` models
an extraction exception or a falsy / entry-less result.  A `none` inside an
entries list models a null entry (`if not entry: continue`). -/

/-- A raw yt-dlp entry.  `id := ""` models a missing or falsy `id` (the code
only tests the id for truthiness before use, so collapsing `None` and `""`
is behaviour-preserving). -/
structure RawEntry where
  id : String := ""
  title : String := ""
  duration : Option Int := none
  was_live : Bool := false
  is_live : Bool := false
  channel_id : Option String := none
  channel : Option String := none
deriving DecidableEq

/-- The channel-info dict `_get_channel_info` builds (only the field the
caller consults is kept). -/
structure ChannelInfo where
  channel_id : String := ""
deriving DecidableEq

/-- The `video_info` dict built by discovery.  The search path builds a dict
without an `is_live` key; it is modelled as `is_live := false`, which the
accept test treats identically. -/
structure VideoInfoDict where
  video_id : String
  title : String := ""
  url : String := ""
  duration : Option Int := none
  was_live : Bool := false
  is_live : Bool := false
  channel_id : Option String := none
  channel : Option String := none
deriving DecidableEq

/-- A watch URL, as built by both discovery paths. -/
def watchUrl (videoId : String) : String :=
  "https://www.youtube.com/watch?v=" ++ videoId

/-- Try yt-dlp on each URL in order and return the first answer
(`_get_channel_info`'s probe loop). -/
def firstInfo (infoO : String → Option ChannelInfo) : List String → Option ChannelInfo
  | [] => none
  | u :: us =>
      match infoO u with
      | some ci => some ci
      | none => firstInfo infoO us

/-- `_get_channel_info(channel_id)`: strip `@`, try handle / custom / legacy
URL shapes (canonical `channel/` shape first when the id starts with `UC`). -/
def get_channel_info (infoO : String → Option ChannelInfo) (channel_id : String) :
    Option ChannelInfo :=
  let clean := stripAt channel_id
  let urls := [
    "https://www.youtube.com/@" ++ clean,
    "https://www.youtube.com/c/" ++ clean,
    "https://www.youtube.com/user/" ++ clean]
  let urls := if clean.startsWith "UC" then
    ("https://www.youtube.com/channel/" ++ clean) :: urls else urls
  firstInfo infoO urls

/-- The four search queries `_search_channel_livestreams` issues. -/
def searchQueries (channel_id : String) : List String :=
  ["ytsearch30:" ++ channel_id ++ " 直播",
   "ytsearch30:" ++ channel_id ++ " live stream",
   "ytsearch30:" ++ channel_id ++ " 실시간",
   "ytsearch20:site:youtube.com " ++ channel_id ++ " live"]

/-- The five live keywords the search path tests against the lowercased
title. -/
def liveKeywordsSearch : List String :=
  ["直播", "live", "stream", "실시간", "ライブ"]

/-- Does the lowercased title contain any of the search live keywords? -/
def acceptSearchEntry (e : RawEntry) : Bool :=
  liveKeywordsSearch.any (fun kw => strContainsStr (lowerStr e.title) kw)

/-- The `video_info` dict built by the search path (`was_live` inferred
`True`; no `is_live` key). -/
def mkSearchVideo (e : RawEntry) : VideoInfoDict :=
  { video_id := e.id, title := e.title, url := watchUrl e.id,
    channel_id := e.channel_id, channel := e.channel,
    duration := e.duration, was_live := true }

/-- Entries of one search query surviving the null / id / keyword guards. -/
def searchEntriesOf (entries : List (Option RawEntry)) : List VideoInfoDict :=
  entries.filterMap (fun oe =>
    match oe with
    | none => none
    | some e =>
        if e.id = "" then none
        else if acceptSearchEntry e then some (mkSearchVideo e) else none)

/-- The `videos` list accumulated over all four search queries (a failing
query contributes nothing). -/
def searchCollect (searchO : String → Option (List (Option RawEntry)))
    (channel_id : String) : List VideoInfoDict :=
  (searchQueries channel_id).foldl (fun acc q =>
    match searchO q with
    | none => acc
    | some entries => acc ++ searchEntriesOf entries) []

/-- The dedup loop of `_search_channel_livestreams`: keep a video iff its
`video_id` has not been seen (the Python `set` is modelled as the list of
seen ids). -/
def dedupById : List VideoInfoDict → List String → List VideoInfoDict
  | [], _ => []
  | v :: rest, seen =>
      if v.video_id ∈ seen then dedupById rest seen
      else v :: dedupById rest (v.video_id :: seen)

/-- `_search_channel_livestreams(channel_id)`. -/
def search_channel_livestreams (searchO : String → Option (List (Option RawEntry)))
    (channel_id : String) : List VideoInfoDict :=
  dedupById (searchCollect searchO channel_id) []

/-- The URL list `get_channel_livestreams` probes: `/streams` and `/videos`
tabs for the resolved real channel id (when `_get_channel_info` produced a
truthy one) followed by the standard shapes for the cleaned reference. -/
def urlsToTry (infoO : String → Option ChannelInfo) (channel_id : String) : List String :=
  let clean := stripAt channel_id
  let base :=
    match get_channel_info infoO clean with
    | some ci =>
        if ci.channel_id = "" then []
        else ["https://www.youtube.com/channel/" ++ ci.channel_id ++ "/streams",
              "https://www.youtube.com/channel/" ++ ci.channel_id ++ "/videos"]
    | none => []
  let std :=
    if clean.startsWith "UC" then
      ["https://www.youtube.com/channel/" ++ clean ++ "/streams",
       "https://www.youtube.com/channel/" ++ clean ++ "/videos"]
    else
      ["https://www.youtube.com/@" ++ clean ++ "/streams",
       "https://www.youtube.com/@" ++ clean ++ "/videos",
       "https://www.youtube.com/c/" ++ clean ++ "/streams",
       "https://www.youtube.com/c/" ++ clean ++ "/videos",
       "https://www.youtube.com/user/" ++ clean ++ "/streams",
       "https://www.youtube.com/user/" ++ clean ++ "/videos"]
  base ++ std

/-- The three live keywords the URL path tests against the lowercased
title. -/
def liveKeywordsUrl : List String := ["直播", "live", "stream"]

/-- The `video_info` dict built by the URL path. -/
def mkUrlVideo (e : RawEntry) : VideoInfoDict :=
  { video_id := e.id, title := e.title, url := watchUrl e.id,
    duration := e.duration, was_live := e.was_live, is_live := e.is_live,
    channel_id := e.channel_id, channel := e.channel }

/-- The URL-path accept test: came from a `/streams` tab, or carries a live
flag, or the lowercased title contains a live keyword. -/
def acceptUrlEntry (url : String) (vi : VideoInfoDict) : Bool :=
  strContainsStr url "/streams" || vi.was_live || vi.is_live ||
    liveKeywordsUrl.any (fun kw => strContainsStr (lowerStr vi.title) kw)

/-- Entries of one channel-tab probe surviving the null / id / accept
guards.  No dedup is performed on this path. -/
def urlEntriesOf (url : String) (entries : List (Option RawEntry)) : List VideoInfoDict :=
  entries.filterMap (fun oe =>
    match oe with
    | none => none
    | some e =>
        if e.id = "" then none
        else
          let vi := mkUrlVideo e
          if acceptUrlEntry url vi then some vi else none)

/-- The probe loop of `get_channel_livestreams`: the first URL that yields
at least one accepted candidate wins (`if videos: break`); a URL whose
entries are all rejected, empty, or failing moves on to the next shape. -/
def probeUrls (listO : String → Option (List (Option RawEntry))) :
    List String → List VideoInfoDict
  | [] => []
  | url :: rest =>
      match listO url with
      | none => probeUrls listO rest
      | some [] => probeUrls listO rest
      | some (e :: es) =>
          match urlEntriesOf url (e :: es) with
          | [] => probeUrls listO rest
          | v :: vs => v :: vs

/-- `get_channel_livestreams(channel_id)`: probe the URL shapes; when no
candidate at all is produced, fall back to the keyword search. -/
def get_channel_livestreams (infoO : String → Option ChannelInfo)
    (listO searchO : String → Option (List (Option RawEntry)))
    (channel_id : String) : List VideoInfoDict :=
  let clean := stripAt channel_id
  match probeUrls listO (urlsToTry infoO channel_id) with
  | [] => search_channel_livestreams searchO clean
  | v :: vs => v :: vs

/-! ### Filters (`_filter_videos_by_date`, `_filter_videos_by_index`)

`datetime.strptime` is modelled by two parse oracles (`parse8` for
`'%Y%m%d'`, `parseDash` for `'%Y-%m-%d'`): `none` stands for `ValueError`.
The claims proved below hold for every parse function, so none of
`strptime`'s quirks need to be reproduced.  `get_video_info` is modelled by
the oracle `getInfo`, returning `none` on failure and otherwise the
`upload_date` value of the detail dict. -/

/-- A parsed calendar date; `datetime` comparison on dates is lexicographic
on (year, month, day). -/
structure PDate where
  y : Nat
  m : Nat
  d : Nat
deriving DecidableEq

/-- `datetime <` on parsed dates. -/
def dateLt (a b : PDate) : Bool :=
  if a.y ≠ b.y then decide (a.y < b.y)
  else if a.m ≠ b.m then decide (a.m < b.m)
  else decide (a.d < b.d)

/-- The effective upload-date string of a candidate: the candidate's own
truthy `upload_date` if any, else the detail-fetch's (`get_video_info`)
truthy `upload_date`, else `none`. -/
def effUploadDate (getInfo : String → Option (Option String)) (v : VideoInfoDict)
    (upload_date : Option String) : Option String :=
  match truthyStr upload_date with
  | some s => some s
  | none =>
      match getInfo v.video_id with
      | some u => truthyStr u
      | none => none

/-- `start_dt = datetime.strptime(start_date, '%Y-%m-%d') if start_date else
None`, with a `ValueError` propagating out of the filter. -/
def parseBound (parseDash : String → Option PDate) (sd : Option String) :
    Except Unit (Option PDate) :=
  match truthyStr sd with
  | none => Except.ok none
  | some s =>
      match parseDash s with
      | some dt => Except.ok (some dt)
      | none => Except.error ()

/-- The per-candidate keep test of the `_filter_videos_by_date` loop: keep
when the effective date is absent or fails to parse, else keep iff the
parsed date is within the inclusive bounds. -/
def keepVideoByDate (parse8 : String → Option PDate)
    (getInfo : String → Option (Option String))
    (sdt edt : Option PDate) (v : VideoInfoDict) (upload_date : Option String) : Bool :=
  match effUploadDate getInfo v upload_date with
  | none => true
  | some s =>
      match parse8 s with
      | none => true
      | some d =>
          (match sdt with
           | some st => !(dateLt d st)
           | none => true) &&
          (match edt with
           | some en => !(dateLt en d)
           | none => true)

/-- `_filter_videos_by_date(videos, start_date, end_date)`.  Candidates are
paired with their `upload_date` dict value (discovery candidates have no
such key, i.e. `none`).  A malformed truthy bound makes `strptime` raise,
modelled as `Except.error`. -/
def filter_videos_by_date (parse8 parseDash : String → Option PDate)
    (getInfo : String → Option (Option String))
    (videos : List (VideoInfoDict × Option String))
    (start_date end_date : Option String) :
    Except Unit (List (VideoInfoDict × Option String)) :=
  if truthyStr start_date = none ∧ truthyStr end_date = none then Except.ok videos
  else
    match parseBound parseDash start_date with
    | Except.error u => Except.error u
    | Except.ok sdt =>
        match parseBound parseDash end_date with
        | Except.error u => Except.error u
        | Except.ok edt =>
            Except.ok (videos.filter (fun ve => keepVideoByDate parse8 getInfo sdt edt ve.1 ve.2))

/-- Python list slicing `xs[s:e]` for nonnegative bounds, written as the
recursive scan the interpreter performs. -/
def pySlice (s e : Nat) : List α → List α
  | [] => []
  | x :: xs =>
      match s, e with
      | 0, 0 => []
      | 0, e' + 1 => x :: pySlice 0 e' xs
      | s' + 1, e'' => pySlice s' (e'' - 1) xs

/-- Python list slicing `xs[s:]` for a nonnegative bound. -/
def pySliceFrom (s : Nat) : List α → List α
  | [] => []
  | x :: xs =>
      match s with
      | 0 => x :: xs
      | s' + 1 => pySliceFrom s' xs

/-- `_filter_videos_by_index(videos, start_index, end_index)`: literally
`videos[start_index:]` when `end_index` is `None`, else
`videos[start_index:end_index]`. -/
def filter_videos_by_index (videos : List VideoInfoDict) (start_index : Nat)
    (end_index : Option Nat) : List VideoInfoDict :=
  match end_index with
  | none => pySliceFrom start_index videos
  | some e => pySlice start_index e videos

/-! ### Relational sink (`save_chat_messages_to_db`)

The `chat_messages` table has a unique constraint on `message_id`
(`models.ChatMessage`).  SQLAlchemy's `Session.add` only stages an object in
the session; no SQL runs until flush, so the unique constraint is first
checked when `session.commit()` flushes the batch.  An `IntegrityError`
therefore surfaces out of `commit`, past the per-row `except IntegrityError`
placed around `session.add` (which can never fire there), into the outer
`except Exception`; the failed transaction is rolled back when the `with`
block closes the session, leaving the store unchanged. -/

/-- A row of the `chat_messages` table (the columns the claims touch). -/
structure MsgRow where
  video_id : String
  message_id : String
  message : String := ""
deriving DecidableEq

/-- The committed `message_id` column. -/
def storeIds (store : List MsgRow) : List String :=
  store.map (fun r => r.message_id)

/-- Sequential flush of the staged batch against the unique `message_id`
constraint: `true` iff every insert succeeds. -/
def flushOk (store : List MsgRow) : List MsgRow → Bool
  | [] => true
  | m :: rest => !(m.message_id ∈ storeIds store : Bool) && flushOk (store ++ [m]) rest

/-- `save_chat_messages_to_db(messages)` acting on the committed store: the
loop stages every row (`session.add` cannot raise `IntegrityError`), then
the single `commit` either inserts the whole batch or — on any duplicate
`message_id` — fails wholesale, the outer handler logs, and the rolled-back
store is unchanged. -/
def save_chat_messages_to_db (store : List MsgRow) (messages : List MsgRow) :
    List MsgRow :=
  if messages = [] then store
  else if flushOk store messages then store ++ messages else store

/-! ### JSON export sink (`save_chat_to_json`) -/

/-- The slice of the `video_info` dict the export sink reads.
`upload_date := none` models a dict without the key. -/
structure VideoInfoMeta where
  video_id : String := ""
  title : String := ""
  upload_date : Option String := none
deriving DecidableEq

/-- The `export_metadata` object. -/
structure ExportMetadata where
  total_messages : Nat
  exported_at : String
  video_id : String
deriving DecidableEq

/-- The single JSON object written by the export sink — exactly the three
top-level fields of `export_data` in the source. -/
structure ExportData where
  video_info : VideoInfoMeta
  chat_messages : List MsgRow
  export_metadata : ExportMetadata
deriving DecidableEq

/-- `save_chat_to_json(video_id, video_info, chat_messages)`.  `today`
models `datetime.now().strftime('%Y%m%d')` and `now_iso` models
`datetime.now().isoformat()`.  Returns the filename (the directory prefix is
fixed configuration) and the written object. -/
def save_chat_to_json (today now_iso : String) (video_id : String)
    (video_info : VideoInfoMeta) (chat_messages : List MsgRow) :
    String × ExportData :=
  let upload_date := video_info.upload_date.getD ""
  let date_str := if upload_date ≠ "" ∧ 8 ≤ upload_date.length then upload_date else today
  (date_str ++ "_" ++ video_id ++ ".json",
   { video_info := video_info,
     chat_messages := chat_messages,
     export_metadata :=
       { total_messages := chat_messages.length,
         exported_at := now_iso,
         video_id := video_id } })

/-! ### SyncController (the loop of `download_channel_chat_history`)

The per-video collaborators are oracles: `existsFor` is the
`session.query(ChatMessage).filter_by(video_id=...).first()` existence
check, `getInfo` is `get_video_info` (`none` = failure), `getChat` is
`download_chat_for_video` (which returns `[]` on any fetch failure).  The
observable side effects — detail fetches, chat fetches, JSON writes, DB
writes, and the `time.sleep(2)` rate-limit calls — are recorded in the run
state so that the claims about them can be stated. -/

structure SyncEnv where
  existsFor : String → Bool
  getInfo : String → Option (Option String)
  getChat : String → List MsgRow

structure SyncFlags where
  skip_existing : Bool := true
  stop_on_existing : Bool := true
  save_to_db : Bool := false
deriving DecidableEq

structure SyncState where
  successful : Nat := 0
  failed : Nat := 0
  skipped : Nat := 0
  processed : Nat := 0
  sleeps : Nat := 0
  halted : Bool := false
  detailCalls : List String := []
  chatCalls : List String := []
  jsonWrites : List String := []
  dbWrites : List String := []
deriving DecidableEq

/-- The all-zero state at the top of the loop. -/
def initSync : SyncState := {}

/-- One iteration of the `for video in videos` loop.  In order: the
existence check (when incremental mode is on) with its stop/skip outcomes,
the detail fetch (failure → failed), the chat fetch (empty → failed), the
JSON write, the optional DB writes, and the rate-limit sleep — which the
source reaches only on the success path. -/
def syncStep (env : SyncEnv) (fl : SyncFlags) (st : SyncState) (v : VideoInfoDict) :
    SyncState :=
  let st := { st with processed := st.processed + 1 }
  if (fl.skip_existing || fl.stop_on_existing) && env.existsFor v.video_id then
    if fl.stop_on_existing then
      { st with skipped := st.skipped + 1, halted := true }
    else
      { st with skipped := st.skipped + 1 }
  else
    let st := { st with detailCalls := st.detailCalls ++ [v.video_id] }
    match env.getInfo v.video_id with
    | none => { st with failed := st.failed + 1 }
    | some _ =>
        let st := { st with chatCalls := st.chatCalls ++ [v.video_id] }
        match env.getChat v.video_id with
        | [] => { st with failed := st.failed + 1 }
        | _ :: _ =>
            let st := { st with jsonWrites := st.jsonWrites ++ [v.video_id] }
            let st := if fl.save_to_db then
              { st with dbWrites := st.dbWrites ++ [v.video_id] } else st
            { st with successful := st.successful + 1, sleeps := st.sleeps + 1 }

/-- The candidate loop: a `break` (stop-on-existing) ends the run with the
state reached at that candidate. -/
def syncLoop (env : SyncEnv) (fl : SyncFlags) : List VideoInfoDict → SyncState → SyncState
  | [], st => st
  | v :: vs, st =>
      let st' := syncStep env fl st v
      if st'.halted then st' else syncLoop env fl vs st'

/-! ### Concrete instances used by counterexamples and witnesses -/

/-- A well-formed `YYYYMMDD` upload-date string: eight digits. -/
def isYYYYMMDD (s : String) : Bool :=
  s.length = 8 && s.toList.all (fun c => '0' ≤ c && c ≤ '9')

/-- Committed row with message id `abc123_0`. -/
def rowDb : MsgRow := { video_id := "abc123", message_id := "abc123_0" }

/-- A second row sharing message id `abc123_0`. -/
def rowDup : MsgRow := { video_id := "abc123", message_id := "abc123_0", message := "dup" }

/-- A fresh row with message id `abc123_1`. -/
def rowNew : MsgRow := { video_id := "abc123", message_id := "abc123_1" }

/-- Channel-info probes always fail. -/
def cexInfoO : String → Option ChannelInfo := fun _ => none

/-- An entry whose id repeats in one page listing. -/
def cexEntry : RawEntry := { id := "a", was_live := true }

/-- The `@c/streams` tab answers with the same entry twice. -/
def cexListO : String → Option (List (Option RawEntry)) := fun url =>
  if url = "https://www.youtube.com/@c/streams" then some [some cexEntry, some cexEntry]
  else none

/-- The search fallback finds nothing. -/
def cexSearchO : String → Option (List (Option RawEntry)) := fun _ => none

/-- Search oracle whose first query returns a duplicated id `a` and a fresh
id `b`. -/
def witSearchO : String → Option (List (Option RawEntry)) := fun q =>
  if q = "ytsearch30:q 直播" then
    some [some { id := "a", title := "live" }, some { id := "a", title := "live" },
          some { id := "b", title := "stream" }]
  else none

/-- The first-seen candidate with id `a` that `witSearchO` produces. -/
def witVidA : VideoInfoDict := mkSearchVideo { id := "a", title := "live" }

/-- Sync environment in which every video's detail fetch fails. -/
def cexSyncEnv : SyncEnv :=
  { existsFor := fun _ => false, getInfo := fun _ => none, getChat := fun _ => [] }

/-- A candidate video for the rate-limit counterexample. -/
def cexVideo : VideoInfoDict := { video_id := "v1" }

/-- Sync environment in which exactly video `w2` is already in the store. -/
def witEnv : SyncEnv :=
  { existsFor := fun s => s == "w2",
    getInfo := fun _ => some (some "20240101"),
    getChat := fun _ => [rowDb] }

/-- Candidates for the stop-on-existing witness run. -/
def witV1 : VideoInfoDict := { video_id := "w1" }

/-- The already-downloaded candidate of the witness run. -/
def witV2 : VideoInfoDict := { video_id := "w2" }

/-- A candidate after the halt point of the witness run. -/
def witV3 : VideoInfoDict := { video_id := "w3" }

/-- A candidate for the date-filter witness. -/
def witVD : VideoInfoDict := { video_id := "d1" }

/-- A decoder that always fails (`json.loads` raising). -/
def decNone : String → Option Jn := fun _ => none

/-- A decoder producing a one-element list holding an empty dict. -/
def decArrObj : String → Option Jn := fun _ => some (Jn.arr [Jn.obj []])

/-! ## Theorems -/

/-! ### C9: the custom-emote detector -/

theorem afterIdent_iff (l : List Char) :
    afterIdent l = true ↔
      ∃ cs post, l = cs ++ ':' :: post ∧ ∀ d ∈ cs, isIdentCh d = true := by
  induction l with
  | nil =>
      simp only [afterIdent]
      constructor
      · intro h; cases h
      · rintro ⟨cs, post, h, -⟩
        cases cs <;> simp at h
  | cons c rest ih =>
      by_cases hc : c = ':'
      · subst hc
        simp only [afterIdent, beq_self_eq_true, if_true]
        constructor
        · intro _; exact ⟨[], rest, rfl, by simp⟩
        · intro _; trivial
      · have hcb : (c == ':') = false := by simp [hc]
        by_cases hi : isIdentCh c = true
        · rw [afterIdent, hcb]
          simp only [Bool.false_eq_true, if_false, hi, if_true]
          rw [ih]
          constructor
          · rintro ⟨cs, post, rfl, hcs⟩
            exact ⟨c :: cs, post, rfl, by
              intro d hd
              rcases List.mem_cons.mp hd with rfl | hd'
              · exact hi
              · exact hcs d hd'⟩
          · rintro ⟨cs, post, heq, hcs⟩
            cases cs with
            | nil => simp at heq; exact absurd heq.1 hc
            | cons a cs' =>
                simp only [List.cons_append, List.cons.injEq] at heq
                obtain ⟨rfl, heq'⟩ := heq
                exact ⟨cs', post, heq', fun d hd => hcs d (List.mem_cons_of_mem _ hd)⟩
        · rw [afterIdent, hcb]
          simp only [Bool.false_eq_true, if_false, hi]
          constructor
          · intro h; cases h
          · rintro ⟨cs, post, heq, hcs⟩
            cases cs with
            | nil => simp at heq; exact absurd heq.1 hc
            | cons a cs' =>
                simp only [List.cons_append, List.cons.injEq] at heq
                exact absurd (heq.1 ▸ hcs a (List.mem_cons_self a cs')) hi

theorem matchEmoteTok_iff (l : List Char) :
    matchEmoteTok l = true ↔
      ∃ c cs post, l = ':' :: c :: (cs ++ ':' :: post) ∧
        isAsciiLetterCh c = true ∧ ∀ d ∈ cs, isIdentCh d = true := by
  match l with
  | [] =>
      simp only [matchEmoteTok]
      constructor
      · intro h; cases h
      · rintro ⟨c, cs, post, h, -⟩; cases h
  | [x] =>
      simp only [matchEmoteTok]
      constructor
      · intro h; cases h
      · rintro ⟨c, cs, post, h, -⟩; cases h
  | x :: c :: rest =>
      rw [matchEmoteTok]
      simp only [Bool.and_eq_true, beq_iff_eq]
      constructor
      · rintro ⟨⟨rfl, hl⟩, ha⟩
        obtain ⟨cs, post, rfl, hcs⟩ := (afterIdent_iff rest).mp ha
        exact ⟨c, cs, post, rfl, hl, hcs⟩
      · rintro ⟨c', cs, post, heq, hl, hcs⟩
        simp only [List.cons.injEq] at heq
        obtain ⟨rfl, rfl, rfl⟩ := heq
        exact ⟨⟨rfl, hl⟩, (afterIdent_iff _).mpr ⟨cs, post, rfl, hcs⟩⟩

theorem searchEmoteTok_iff (l : List Char) : searchEmoteTok l = true ↔ HasEmoteToken l := by
  induction l with
  | nil =>
      simp only [searchEmoteTok, HasEmoteToken]
      constructor
      · intro h; cases h
      · rintro ⟨pre, c, cs, post, h, -⟩
        cases pre <;> simp at h
  | cons x rest ih =>
      rw [searchEmoteTok]
      simp only [Bool.or_eq_true]
      constructor
      · rintro (hm | hs)
        · obtain ⟨c, cs, post, heq, hl, hcs⟩ := (matchEmoteTok_iff _).mp hm
          exact ⟨[], c, cs, post, by simpa using heq, hl, hcs⟩
        · obtain ⟨pre, c, cs, post, heq, hl, hcs⟩ := ih.mp hs
          exact ⟨x :: pre, c, cs, post, by simp [heq], hl, hcs⟩
      · rintro ⟨pre, c, cs, post, heq, hl, hcs⟩
        cases pre with
        | nil =>
            left
            exact (matchEmoteTok_iff _).mpr ⟨c, cs, post, by simpa using heq, hl, hcs⟩
        | cons p pre' =>
            right
            simp only [List.cons_append, List.cons.injEq] at heq
            exact ih.mpr ⟨pre', c, cs, post, heq.2, hl, hcs⟩

theorem has_custom_emojis_eq_search (s : String) :
    has_custom_emojis s = searchEmoteTok s.toList := by
  rw [has_custom_emojis]
  by_cases h : s = ""
  · subst h; rfl
  · rw [if_neg h]

/-- Claim C9: `has_custom_emojis` returns `true` exactly when the message
contains a `:identifier:` token whose identifier starts with a letter and
continues with letters, digits, underscore, or hyphen; in particular it is
`true` on `"great run :pog: today"`, `false` on `"see you at 1:30"`, and
the numeric-leading `":1:30:"` never matches. -/
theorem has_custom_emojis_spec :
    (∀ s : String, has_custom_emojis s = true ↔ HasEmoteToken s.toList) ∧
    has_custom_emojis "great run :pog: today" = true ∧
    has_custom_emojis "see you at 1:30" = false ∧
    has_custom_emojis ":1:30:" = false := by
  refine ⟨?_, by decide, by decide, by decide⟩
  intro s
  rw [has_custom_emojis_eq_search]
  exact searchEmoteTok_iff s.toList

/-! ### C10: totality of the emote-payload parser -/

theorem processEmote_ok_some (x : Jn) (info : EmoteInfo)
    (h : processEmote x = Except.ok (some info)) :
    ∃ fields, x = Jn.obj fields ∧
      info.is_custom_emoji = (jfind fields "is_custom_emoji").getD (Jn.bool true) := by
  cases x with
  | obj fields =>
      refine ⟨fields, rfl, ?_⟩
      simp only [processEmote] at h
      split at h
      · simp only [Except.ok.injEq, Option.some.injEq] at h
        rw [← h]
      · cases h
  | null => simp [processEmote] at h
  | bool b => simp [processEmote] at h
  | num n => simp [processEmote] at h
  | str s => simp [processEmote] at h
  | arr xs => simp [processEmote] at h

theorem processEmoteList_mem (xs : List Jn) (l : List EmoteInfo)
    (h : processEmoteList xs = Except.ok l) :
    ∀ e ∈ l, ∃ fields, Jn.obj fields ∈ xs ∧
      e.is_custom_emoji = (jfind fields "is_custom_emoji").getD (Jn.bool true) := by
  induction xs generalizing l with
  | nil =>
      simp only [processEmoteList, Except.ok.injEq] at h
      subst h; intro e he; cases he
  | cons x rest ih =>
      rw [processEmoteList] at h
      cases hx : processEmote x with
      | error u => rw [hx] at h; cases h
      | ok headOpt =>
          rw [hx] at h
          cases hr : processEmoteList rest with
          | error u => rw [hr] at h; cases h
          | ok tail =>
              rw [hr] at h
              cases headOpt with
              | none =>
                  simp only [Except.ok.injEq] at h
                  subst h
                  intro e he
                  obtain ⟨f, hf, hic⟩ := ih tail hr e he
                  exact ⟨f, List.mem_cons_of_mem _ hf, hic⟩
              | some info =>
                  simp only [Except.ok.injEq] at h
                  subst h
                  intro e he
                  rcases List.mem_cons.mp he with rfl | he'
                  · obtain ⟨f, hx', hic⟩ := processEmote_ok_some x e hx
                    exact ⟨f, by rw [← hx']; exact List.mem_cons_self x rest, hic⟩
                  · obtain ⟨f, hf, hic⟩ := ih tail hr e he'
                    exact ⟨f, List.mem_cons_of_mem _ hf, hic⟩

/-- Claim C10: `extract_emote_info` is total and fail-closed: a `None`
input, an empty string, an undecodable payload, or a decodable non-list
payload all yield `[]` rather than an exception; every entry the parser
does return takes its `is_custom_emoji` value from the source dict,
defaulting to `true` when the payload omits the key; and `count_emotes` is
the length of the extracted list, hence total as well. -/
theorem extract_emote_info_total :
    (∀ decode, extract_emote_info decode none = []) ∧
    (∀ decode, extract_emote_info decode (some "") = []) ∧
    (∀ decode s, decode s = none → extract_emote_info decode (some s) = []) ∧
    (∀ decode s j, decode s = some j → (∀ xs, j ≠ Jn.arr xs) →
      extract_emote_info decode (some s) = []) ∧
    (∀ decode s xs, decode s = some (Jn.arr xs) →
      ∀ e ∈ extract_emote_info decode (some s), ∃ fields, Jn.obj fields ∈ xs ∧
        e.is_custom_emoji = (jfind fields "is_custom_emoji").getD (Jn.bool true)) ∧
    (∀ decode emotes_data, count_emotes decode emotes_data =
      (extract_emote_info decode emotes_data).length) := by
  refine ⟨fun _ => rfl, fun _ => rfl, ?_, ?_, ?_, fun _ _ => rfl⟩
  · intro decode s hd
    rw [extract_emote_info]
    split
    · rfl
    · rw [hd]
  · intro decode s j hd hj
    rw [extract_emote_info]
    split
    · rfl
    · rw [hd]
      cases j with
      | arr xs => exact absurd rfl (hj xs)
      | null => rfl
      | bool b => rfl
      | num n => rfl
      | str s' => rfl
      | obj fs => rfl
  · intro decode s xs hd e he
    rw [extract_emote_info] at he
    split at he
    · cases he
    · rw [hd] at he
      simp only [] at he
      cases hp : processEmoteList xs with
      | error u => rw [hp] at he; cases he
      | ok result =>
          rw [hp] at he
          exact processEmoteList_mem xs result hp e he

/-- Witness for C10 at concrete inputs: a failing decoder yields `[]`, and
the single entry extracted from payload `[{}]` carries the defaulted
`is_custom_emoji = true`. -/
theorem extract_emote_info_total_witness :
    extract_emote_info decNone (some "x") = [] ∧
    (∃ fields, Jn.obj fields ∈ [Jn.obj []] ∧
      Jn.bool true = (jfind fields "is_custom_emoji").getD (Jn.bool true)) := by
  refine ⟨extract_emote_info_total.2.2.1 decNone "x" rfl, ?_⟩
  have he : (⟨Jn.str "", Jn.str "", Jn.str "", Jn.bool true⟩ : EmoteInfo) ∈
      extract_emote_info decArrObj (some "x") := by
    rw [show extract_emote_info decArrObj (some "x")
      = [⟨Jn.str "", Jn.str "", Jn.str "", Jn.bool true⟩] from rfl]
    exact List.mem_singleton.mpr rfl
  obtain ⟨fields, hf, hic⟩ :=
    extract_emote_info_total.2.2.2.2.1 decArrObj "x" [Jn.obj []] rfl _ he
  exact ⟨fields, hf, hic⟩

/-! ### C5: the index filter is exactly Python slicing -/

theorem pySlice_eq_take_drop (s e : Nat) (xs : List VideoInfoDict) :
    pySlice s e xs = (xs.take e).drop s := by
  induction xs generalizing s e with
  | nil => simp [pySlice]
  | cons x xs ih =>
      match s, e with
      | 0, 0 => simp [pySlice]
      | 0, e' + 1 =>
          rw [pySlice]
          simp [ih 0 e']
      | s' + 1, e'' =>
          rw [pySlice]
          cases e'' with
          | zero => simp [ih s' 0]
          | succ e' => simp [ih s' e']

theorem pySliceFrom_eq_drop (s : Nat) (xs : List VideoInfoDict) :
    pySliceFrom s xs = xs.drop s := by
  induction xs generalizing s with
  | nil => simp [pySliceFrom]
  | cons x xs ih =>
      cases s with
      | zero => rfl
      | succ s' => rw [pySliceFrom]; exact ih s'

/-- Claim C5: `_filter_videos_by_index` returns exactly the half-open slice
`videos[s:e]` (and `videos[s:]` when the end index is absent), hence it
only removes elements from the ends and never reorders: the result is a
contiguous segment of the input. -/
theorem filter_videos_by_index_spec (videos : List VideoInfoDict) (s : Nat) :
    (∀ e, filter_videos_by_index videos s (some e) = (videos.take e).drop s) ∧
    (filter_videos_by_index videos s none = videos.drop s) ∧
    (∀ eo, ∃ pre post, videos = pre ++ filter_videos_by_index videos s eo ++ post) := by
  refine ⟨fun e => pySlice_eq_take_drop s e videos, pySliceFrom_eq_drop s videos, ?_⟩
  intro eo
  cases eo with
  | none =>
      refine ⟨videos.take s, [], ?_⟩
      rw [filter_videos_by_index, pySliceFrom_eq_drop]
      simp
  | some e =>
      refine ⟨(videos.take e).take s, videos.drop e, ?_⟩
      rw [filter_videos_by_index, pySlice_eq_take_drop]
      rw [List.take_append_drop, List.take_append_drop]

/-! ### C4: the date filter is fail-open and a sublist of its input -/

theorem keepVideoByDate_of_undetermined (parse8 : String → Option PDate)
    (getInfo : String → Option (Option String)) (sdt edt : Option PDate)
    (v : VideoInfoDict) (upload_date : Option String)
    (h : effUploadDate getInfo v upload_date = none ∨
      ∃ s, effUploadDate getInfo v upload_date = some s ∧ parse8 s = none) :
    keepVideoByDate parse8 getInfo sdt edt v upload_date = true := by
  rcases h with h | ⟨s, hs, hp⟩
  · simp [keepVideoByDate, h]
  · simp [keepVideoByDate, hs, hp]

/-- Claim C4: whenever `_filter_videos_by_date` returns (i.e. the bounds
themselves parse), the result is a sublist of the input — never a superset,
never reordered — every retained candidate with a determinable, parseable
date lies within the inclusive bounds, and every candidate whose effective
date is absent or unparseable is retained (fail-open). -/
theorem filter_videos_by_date_spec (parse8 parseDash : String → Option PDate)
    (getInfo : String → Option (Option String))
    (videos : List (VideoInfoDict × Option String)) (sd ed : Option String)
    (res : List (VideoInfoDict × Option String))
    (h : filter_videos_by_date parse8 parseDash getInfo videos sd ed = Except.ok res) :
    res.Sublist videos ∧
    (∀ ve ∈ res, ∀ s, effUploadDate getInfo ve.1 ve.2 = some s →
      ∀ d, parse8 s = some d →
        (∀ s' st, truthyStr sd = some s' → parseDash s' = some st →
          dateLt d st = false) ∧
        (∀ s' en, truthyStr ed = some s' → parseDash s' = some en →
          dateLt en d = false)) ∧
    (∀ ve ∈ videos,
      (effUploadDate getInfo ve.1 ve.2 = none ∨
        ∃ s, effUploadDate getInfo ve.1 ve.2 = some s ∧ parse8 s = none) →
      ve ∈ res) := by
  rw [filter_videos_by_date] at h
  split at h
  · rename_i hcond
    have hres : videos = res := by
      simpa using h
    subst hres
    refine ⟨List.Sublist.refl videos, ?_, fun ve hv _ => hv⟩
    intro ve hv s hs d hd
    constructor
    · intro s' st hsd
      rw [hcond.1] at hsd; cases hsd
    · intro s' en hed
      rw [hcond.2] at hed; cases hed
  · cases hsb : parseBound parseDash sd with
    | error u => rw [hsb] at h; cases h
    | ok sdt =>
        rw [hsb] at h
        cases heb : parseBound parseDash ed with
        | error u => rw [heb] at h; cases h
        | ok edt =>
            rw [heb] at h
            simp only [Except.ok.injEq] at h
            subst h
            refine ⟨List.filter_sublist videos, ?_, ?_⟩
            · intro ve hv s hs d hd
              have hkeep := (List.mem_filter.mp hv).2
              simp only [keepVideoByDate, hs, hd, Bool.and_eq_true] at hkeep
              constructor
              · intro s' st hsd hps
                have hs1 : sdt = some st := by
                  simp only [parseBound, hsd, hps, Except.ok.injEq] at hsb
                  exact hsb.symm
                rw [hs1] at hkeep
                simpa using hkeep.1
              · intro s' en hed hpe
                have he1 : edt = some en := by
                  simp only [parseBound, hed, hpe, Except.ok.injEq] at heb
                  exact heb.symm
                rw [he1] at hkeep
                simpa using hkeep.2
            · intro ve hv hund
              exact List.mem_filter.mpr
                ⟨hv, keepVideoByDate_of_undetermined parse8 getInfo sdt edt ve.1 ve.2 hund⟩

/-- Witness for C4 at a concrete run: one candidate with no determinable
date passes the filter for the range starting `2024-01-01`. -/
theorem filter_videos_by_date_spec_witness :
    ([((witVD, none) : VideoInfoDict × Option String)].Sublist [(witVD, none)]) ∧
    (((witVD, none) : VideoInfoDict × Option String) ∈ [((witVD, none) : VideoInfoDict × Option String)]) := by
  have h := filter_videos_by_date_spec (fun _ => none) (fun _ => some ⟨2024, 1, 1⟩)
    (fun _ => none) [(witVD, none)] (some "2024-01-01") none [(witVD, none)] rfl
  exact ⟨h.1, h.2.2 (witVD, none) (List.mem_singleton.mpr rfl) (Or.inl rfl)⟩

/-! ### C3: discovery deduplication -/

theorem dedupById_nodup_and_unseen (l : List VideoInfoDict) (seen : List String) :
    ((dedupById l seen).map (fun v => v.video_id)).Nodup ∧
    (∀ w ∈ dedupById l seen, w.video_id ∉ seen) := by
  induction l generalizing seen with
  | nil => exact ⟨List.nodup_nil, fun w hw => absurd hw (List.not_mem_nil w)⟩
  | cons v rest ih =>
      rw [dedupById]
      by_cases hv : v.video_id ∈ seen
      · rw [if_pos hv]; exact ih seen
      · rw [if_neg hv]
        obtain ⟨hnd, hns⟩ := ih (v.video_id :: seen)
        refine ⟨?_, ?_⟩
        · rw [List.map_cons, List.nodup_cons]
          refine ⟨?_, hnd⟩
          intro hmem
          obtain ⟨w, hw, hid⟩ := List.mem_map.mp hmem
          exact hns w hw (hid ▸ List.mem_cons_self _ _)
        · intro w hw
          rcases List.mem_cons.mp hw with rfl | hw'
          · exact hv
          · intro hws
            exact hns w hw' (List.mem_cons_of_mem _ hws)

theorem dedupById_sublist (l : List VideoInfoDict) (seen : List String) :
    (dedupById l seen).Sublist l := by
  induction l generalizing seen with
  | nil => exact List.Sublist.refl []
  | cons v rest ih =>
      rw [dedupById]
      by_cases hv : v.video_id ∈ seen
      · rw [if_pos hv]
        exact List.Sublist.cons v (ih seen)
      · rw [if_neg hv]
        exact List.Sublist.cons₂ v (ih (v.video_id :: seen))

theorem dedupById_covers (l : List VideoInfoDict) (seen : List String) :
    ∀ v ∈ l, v.video_id ∉ seen →
      ∃ w ∈ dedupById l seen, w.video_id = v.video_id := by
  induction l generalizing seen with
  | nil => intro v hv; cases hv
  | cons x rest ih =>
      intro v hv hvs
      rw [dedupById]
      by_cases hx : x.video_id ∈ seen
      · rw [if_pos hx]
        rcases List.mem_cons.mp hv with rfl | hv'
        · exact absurd hx hvs
        · exact ih seen v hv' hvs
      · rw [if_neg hx]
        rcases List.mem_cons.mp hv with rfl | hv'
        · exact ⟨v, List.mem_cons_self _ _, rfl⟩
        · by_cases hsame : v.video_id = x.video_id
          · exact ⟨x, List.mem_cons_self _ _, hsame.symm⟩
          · obtain ⟨w, hw, hid⟩ := ih (x.video_id :: seen) v hv' (by
              intro hmem
              rcases List.mem_cons.mp hmem with h | h
              · exact hsame h
              · exact hvs h)
            exact ⟨w, List.mem_cons_of_mem _ hw, hid⟩

theorem dedupById_first_seen (l : List VideoInfoDict) (seen : List String) :
    ∀ w ∈ dedupById l seen,
      l.find? (fun v => v.video_id == w.video_id) = some w := by
  induction l generalizing seen with
  | nil => intro w hw; cases hw
  | cons x rest ih =>
      intro w hw
      rw [dedupById] at hw
      by_cases hx : x.video_id ∈ seen
      · rw [if_pos hx] at hw
        have hne : w.video_id ≠ x.video_id := by
          intro heq
          exact (dedupById_nodup_and_unseen rest seen).2 w hw (heq ▸ hx)
        rw [List.find?_cons_of_neg _ (by simpa using fun h => hne h.symm)]
        exact ih seen w hw
      · rw [if_neg hx] at hw
        rcases List.mem_cons.mp hw with rfl | hw'
        · rw [List.find?_cons_of_pos _ (by simp)]
        · have hne : w.video_id ≠ x.video_id := by
            intro heq
            exact (dedupById_nodup_and_unseen rest (x.video_id :: seen)).2 w hw'
              (heq ▸ List.mem_cons_self _ _)
          rw [List.find?_cons_of_neg _ (by simpa using fun h => hne h.symm)]
          exact ih (x.video_id :: seen) w hw'

/-- Claim C3 (amended): the keyword-search fallback path deduplicates by
`video_id` — its result has pairwise distinct ids, is a subsequence of the
collected search hits, covers every collected id, and each surviving entry
is the first-seen occurrence of its id.  (The URL-shape probing path of
`get_channel_livestreams` performs no such deduplication; see the
counterexample.) -/
theorem search_fallback_dedup (searchO : String → Option (List (Option RawEntry)))
    (channel_id : String) :
    ((search_channel_livestreams searchO channel_id).map (fun v => v.video_id)).Nodup ∧
    (search_channel_livestreams searchO channel_id).Sublist
      (searchCollect searchO channel_id) ∧
    (∀ v ∈ searchCollect searchO channel_id,
      ∃ w ∈ search_channel_livestreams searchO channel_id,
        w.video_id = v.video_id) ∧
    (∀ w ∈ search_channel_livestreams searchO channel_id,
      (searchCollect searchO channel_id).find? (fun v => v.video_id == w.video_id)
        = some w) := by
  refine ⟨(dedupById_nodup_and_unseen _ []).1, dedupById_sublist _ [], ?_, ?_⟩
  · intro v hv
    exact dedupById_covers _ [] v hv (List.not_mem_nil _)
  · intro w hw
    exact dedupById_first_seen _ [] w hw

/-- Claim C3 counterexample: with a channel page whose `/streams` tab lists
the same video id twice, the URL-shape probing path of
`get_channel_livestreams` returns both copies — the discovery result is not
duplicate-free. -/
theorem discovery_url_path_dup_counterexample :
    ((get_channel_livestreams cexInfoO cexListO cexSearchO "c").map
      (fun v => v.video_id)) = ["a", "a"] ∧
    ¬ ((get_channel_livestreams cexInfoO cexListO cexSearchO "c").map
      (fun v => v.video_id)).Nodup := by
  have h : ((get_channel_livestreams cexInfoO cexListO cexSearchO "c").map
      (fun v => v.video_id)) = ["a", "a"] := by decide
  refine ⟨h, ?_⟩
  rw [h]
  decide

/-- Witness for the amended C3 at a concrete search run with a duplicated
id: the surviving list has distinct ids and still covers id `a`. -/
theorem search_fallback_dedup_witness :
    ((search_channel_livestreams witSearchO "q").map (fun v => v.video_id)).Nodup ∧
    (∃ w ∈ search_channel_livestreams witSearchO "q", w.video_id = "a") := by
  refine ⟨(search_fallback_dedup witSearchO "q").1, ?_⟩
  obtain ⟨w, hw, hid⟩ := (search_fallback_dedup witSearchO "q").2.2.1 witVidA (by decide)
  exact ⟨w, hw, hid⟩

/-! ### C1: the duplicate-insert path of the relational sink -/

/-- Claim C1 (code bug, evaluated at the failing input): the store already
holds message id `abc123_0`; a batch with a duplicate of it and a fresh row
`abc123_1` is submitted.  `session.add` never raises `IntegrityError`, so
the per-row skip handler is dead code; the violation surfaces from the
single `commit`, the outer handler swallows it, and the rolled-back store
is unchanged — the remaining row `abc123_1` is NOT inserted, contrary to
the claim.  (Only the claim's "exactly one row with that message_id
remains" part survives, vacuously, because nothing was inserted.) -/
theorem save_chat_messages_dup_batch_aborts :
    save_chat_messages_to_db [rowDb] [rowDup, rowNew] = [rowDb] ∧
    rowNew ∉ save_chat_messages_to_db [rowDb] [rowDup, rowNew] ∧
    (storeIds (save_chat_messages_to_db [rowDb] [rowDup, rowNew])).count "abc123_0" = 1 := by
  decide

/-! ### C8: the JSON export sink -/

/-- Claim C8: the export filename is deterministic —
`{upload_date}_{video_id}.json` whenever the dict carries a well-formed
`YYYYMMDD` upload date, and `{today}_{video_id}.json` when the date is
absent — and the written object (an `ExportData`, which has exactly the
three top-level fields `video_info`, `chat_messages`, `export_metadata`)
carries the messages in arrival order, with
`export_metadata.total_messages` equal to their number and
`export_metadata.video_id` equal to the exported video's id. -/
theorem save_chat_to_json_spec (today now_iso video_id : String)
    (video_info : VideoInfoMeta) (chat_messages : List MsgRow) :
    (∀ u, video_info.upload_date = some u → isYYYYMMDD u = true →
      (save_chat_to_json today now_iso video_id video_info chat_messages).1
        = u ++ "_" ++ video_id ++ ".json") ∧
    (video_info.upload_date = none →
      (save_chat_to_json today now_iso video_id video_info chat_messages).1
        = today ++ "_" ++ video_id ++ ".json") ∧
    (save_chat_to_json today now_iso video_id video_info chat_messages).2.video_info
      = video_info ∧
    (save_chat_to_json today now_iso video_id video_info chat_messages).2.chat_messages
      = chat_messages ∧
    (save_chat_to_json today now_iso video_id
      video_info chat_messages).2.export_metadata.total_messages
      = chat_messages.length ∧
    (save_chat_to_json today now_iso video_id
      video_info chat_messages).2.export_metadata.video_id = video_id := by
  refine ⟨?_, ?_, rfl, rfl, rfl, rfl⟩
  · intro u hu hy
    rw [isYYYYMMDD, Bool.and_eq_true] at hy
    have hlen : u.length = 8 := by
      have := hy.1
      simpa using this
    have hne : u ≠ "" := by
      intro heq
      rw [heq] at hlen
      simp at hlen
    rw [save_chat_to_json]
    simp only [hu, Option.getD_some]
    rw [if_pos ⟨hne, by rw [hlen]⟩]
  · intro hu
    rw [save_chat_to_json]
    simp only [hu, Option.getD_none]
    rw [if_neg (by intro hcon; exact hcon.1 rfl)]

/-- Witness for C8 at the scenario from the specification: video `abc123`
with upload date `20240101` and one message exports to
`20240101_abc123.json` with `total_messages = 1`. -/
theorem save_chat_to_json_spec_witness :
    (save_chat_to_json "20991231" "2024-01-01T00:00:00" "abc123"
      { video_id := "abc123", upload_date := some "20240101" } [rowDb]).1
      = "20240101_abc123.json" ∧
    (save_chat_to_json "20991231" "2024-01-01T00:00:00" "abc123"
      { video_id := "abc123", upload_date := some "20240101" }
      [rowDb]).2.export_metadata.total_messages = 1 := by
  have h := save_chat_to_json_spec "20991231" "2024-01-01T00:00:00" "abc123"
    { video_id := "abc123", upload_date := some "20240101" } [rowDb]
  refine ⟨?_, h.2.2.2.2.1⟩
  have h1 := h.1 "20240101" rfl (by decide)
  rw [h1]
  decide

/-! ### C2, C6, C7: the sync loop -/

theorem syncStep_not_exists (env : SyncEnv) (fl : SyncFlags) (st : SyncState)
    (v : VideoInfoDict) (hex : env.existsFor v.video_id = false) :
    (syncStep env fl st v).halted = st.halted ∧
    (syncStep env fl st v).skipped = st.skipped := by
  simp only [syncStep, hex, Bool.and_false, Bool.false_eq_true, if_false]
  cases env.getInfo v.video_id with
  | none => simp
  | some u =>
      cases env.getChat v.video_id with
      | nil => simp
      | cons m ms =>
          by_cases hdb : fl.save_to_db <;> simp [hdb]

theorem syncLoop_append_no_exists (env : SyncEnv) (fl : SyncFlags)
    (pre : List VideoInfoDict) :
    ∀ (rest : List VideoInfoDict) (st : SyncState), st.halted = false →
      (∀ w ∈ pre, env.existsFor w.video_id = false) →
      syncLoop env fl (pre ++ rest) st = syncLoop env fl rest (syncLoop env fl pre st) ∧
      (syncLoop env fl pre st).halted = false ∧
      (syncLoop env fl pre st).skipped = st.skipped := by
  induction pre with
  | nil =>
      intro rest st hh _
      exact ⟨by rw [List.nil_append, syncLoop], by rw [syncLoop]; exact hh,
        by rw [syncLoop]⟩
  | cons v pre' ih =>
      intro rest st hh hall
      have hex : env.existsFor v.video_id = false := hall v (List.mem_cons_self _ _)
      obtain ⟨hst_h, hst_k⟩ := syncStep_not_exists env fl st v hex
      have hh' : (syncStep env fl st v).halted = false := by rw [hst_h, hh]
      obtain ⟨ha, hb, hc⟩ := ih rest (syncStep env fl st v) hh'
        (fun w hw => hall w (List.mem_cons_of_mem _ hw))
      refine ⟨?_, ?_, ?_⟩
      · rw [List.cons_append, syncLoop, if_neg (by rw [hh']; simp), ha, syncLoop,
          if_neg (by rw [hh']; simp)]
      · rw [syncLoop, if_neg (by rw [hh']; simp)]
        exact hb
      · rw [syncLoop, if_neg (by rw [hh']; simp), hc, hst_k]

theorem syncStep_stop (env : SyncEnv) (fl : SyncFlags) (st : SyncState)
    (v : VideoInfoDict) (hstop : fl.stop_on_existing = true)
    (hv : env.existsFor v.video_id = true) :
    syncStep env fl st v = { st with processed := st.processed + 1, skipped := st.skipped + 1, halted := true } := by
  simp [syncStep, hstop, hv]

/-- Claim C2: with stop-on-existing enabled, the loop over
`pre ++ v :: post` — where no candidate in `pre` is already stored and `v`
is — runs exactly like the loop over `pre ++ [v]`: the run halts at `v`
(nothing after `v` is fetched, persisted, or counted), and `v` is counted
as the single skip of the run. -/
theorem stop_on_existing_halts (env : SyncEnv) (fl : SyncFlags)
    (pre post : List VideoInfoDict) (v : VideoInfoDict)
    (hstop : fl.stop_on_existing = true)
    (hpre : ∀ w ∈ pre, env.existsFor w.video_id = false)
    (hv : env.existsFor v.video_id = true) :
    syncLoop env fl (pre ++ v :: post) initSync
      = syncLoop env fl (pre ++ [v]) initSync ∧
    (syncLoop env fl (pre ++ v :: post) initSync).skipped = 1 ∧
    (syncLoop env fl (pre ++ v :: post) initSync).halted = true := by
  obtain ⟨ha, hb, hc⟩ := syncLoop_append_no_exists env fl pre (v :: post) initSync rfl hpre
  obtain ⟨ha2, _, _⟩ := syncLoop_append_no_exists env fl pre [v] initSync rfl hpre
  have hstep := syncStep_stop env fl (syncLoop env fl pre initSync) v hstop hv
  have hone : syncLoop env fl (v :: post) (syncLoop env fl pre initSync)
      = syncStep env fl (syncLoop env fl pre initSync) v := by
    rw [syncLoop, if_pos (by rw [hstep])]
  have hone2 : syncLoop env fl [v] (syncLoop env fl pre initSync)
      = syncStep env fl (syncLoop env fl pre initSync) v := by
    rw [syncLoop, if_pos (by rw [hstep])]
  refine ⟨?_, ?_, ?_⟩
  · rw [ha, ha2, hone, hone2]
  · rw [ha, hone, hstep]
    show (syncLoop env fl pre initSync).skipped + 1 = 1
    rw [hc]
    rfl
  · rw [ha, hone, hstep]

/-- Witness for C2: a three-candidate run in which exactly the middle
candidate `w2` is already stored halts there with one skip. -/
theorem stop_on_existing_halts_witness :
    syncLoop witEnv {} ([witV1] ++ witV2 :: [witV3]) initSync
      = syncLoop witEnv {} ([witV1] ++ [witV2]) initSync ∧
    (syncLoop witEnv {} ([witV1] ++ witV2 :: [witV3]) initSync).skipped = 1 ∧
    (syncLoop witEnv {} ([witV1] ++ witV2 :: [witV3]) initSync).halted = true :=
  stop_on_existing_halts witEnv {} [witV1] [witV3] witV2 rfl (by decide) (by decide)

theorem syncStep_counts (env : SyncEnv) (fl : SyncFlags) (st : SyncState)
    (v : VideoInfoDict) :
    (syncStep env fl st v).successful + (syncStep env fl st v).failed +
      (syncStep env fl st v).skipped
      = st.successful + st.failed + st.skipped + 1 ∧
    (syncStep env fl st v).processed = st.processed + 1 ∧
    (syncStep env fl st v).sleeps + st.successful
      = (syncStep env fl st v).successful + st.sleeps := by
  simp only [syncStep]
  split
  · split <;> refine ⟨by simp <;> omega, by simp, by simp <;> omega⟩
  · cases env.getInfo v.video_id with
    | none => refine ⟨by simp <;> omega, by simp, by simp <;> omega⟩
    | some u =>
        cases env.getChat v.video_id with
        | nil => refine ⟨by simp <;> omega, by simp, by simp <;> omega⟩
        | cons m ms =>
            by_cases hdb : fl.save_to_db <;>
              refine ⟨by simp [hdb] <;> omega, by simp [hdb], by simp [hdb] <;> omega⟩

theorem syncLoop_counts (env : SyncEnv) (fl : SyncFlags) :
    ∀ (vs : List VideoInfoDict) (st : SyncState),
      (syncLoop env fl vs st).successful + (syncLoop env fl vs st).failed +
        (syncLoop env fl vs st).skipped + st.processed
        = (syncLoop env fl vs st).processed +
          (st.successful + st.failed + st.skipped) ∧
      (syncLoop env fl vs st).sleeps + st.successful
        = (syncLoop env fl vs st).successful + st.sleeps := by
  intro vs
  induction vs with
  | nil => intro st; rw [syncLoop]; exact ⟨by omega, by omega⟩
  | cons v vs ih =>
      intro st
      obtain ⟨h1, h2, h3⟩ := syncStep_counts env fl st v
      rw [syncLoop]
      split
      · exact ⟨by omega, by omega⟩
      · obtain ⟨ha, hb⟩ := ih (syncStep env fl st v)
        exact ⟨by omega, by omega⟩

/-- Claim C6: every processed candidate increments exactly one of the three
counters, so at the end of a run (from the all-zero initial state)
`successful + failed + skipped` equals the number of candidates the loop
entered — including, when stop-on-existing fires, the halting candidate
counted as skipped. -/
theorem sync_counters_partition (env : SyncEnv) (fl : SyncFlags)
    (videos : List VideoInfoDict) :
    (∀ (st : SyncState) (v : VideoInfoDict),
      (syncStep env fl st v).successful + (syncStep env fl st v).failed +
        (syncStep env fl st v).skipped
        = st.successful + st.failed + st.skipped + 1 ∧
      (syncStep env fl st v).processed = st.processed + 1) ∧
    (syncLoop env fl videos initSync).successful +
      (syncLoop env fl videos initSync).failed +
      (syncLoop env fl videos initSync).skipped
      = (syncLoop env fl videos initSync).processed := by
  refine ⟨fun st v => ⟨(syncStep_counts env fl st v).1, (syncStep_counts env fl st v).2.1⟩, ?_⟩
  have h := (syncLoop_counts env fl videos initSync).1
  simp only [initSync] at h ⊢
  omega

/-- Claim C7 counterexample: a run whose single candidate fails its detail
fetch is processed (`failed = 1`, `processed = 1`) yet performs no
rate-limit sleep — the fixed inter-video delay is NOT applied after a
failed video, contrary to the claim. -/
theorem rate_limit_skipped_on_failure_counterexample :
    (syncLoop cexSyncEnv {} [cexVideo] initSync).failed = 1 ∧
    (syncLoop cexSyncEnv {} [cexVideo] initSync).processed = 1 ∧
    (syncLoop cexSyncEnv {} [cexVideo] initSync).sleeps = 0 := by
  decide

/-- Claim C7 (amended): the fixed inter-video delay is applied exactly
after each successfully processed video — the number of `time.sleep`
calls in a run equals the number of successes; failed and skipped
candidates move on without any delay. -/
theorem sleeps_eq_successful (env : SyncEnv) (fl : SyncFlags)
    (videos : List VideoInfoDict) :
    (syncLoop env fl videos initSync).sleeps
      = (syncLoop env fl videos initSync).successful := by
  have h := (syncLoop_counts env fl videos initSync).2
  simp only [initSync] at h ⊢
  omega
